import Mathlib

/-!
Verification of the `dbmigration` record-reconciliation program
(`migrate.py`).  Descriptions are embedded as `List Char`, prices as `Int`
(the program never computes with prices).  The reconciliation core —
`get_normalize_description`, `calc_description_equivalence_ratio`
(rendered here as `calc_description_equivalence_score`), `Product.__eq__`
(rendered as `productEq`) and `Migrate.run` (rendered as `run`) — is
translated from the source.  The external library calls
(`unicodedata.normalize`, `str.lower`, `fuzz.token_sort_ratio`) are
modelled from the specification, as noted on each definition.
-/

set_option autoImplicit false

namespace DBMigration

/-- Modelled from the spec: Unicode NFKD canonical decomposition of a single
character (`unicodedata.normalize` from Python's standard library, which is
not part of this repository).  A Latin letter carrying a diacritic decomposes
into the base letter followed by the combining mark; a character with no
decomposition maps to itself.  The table covers the accented letters
appearing in the repository's examples. -/
def nfkdChar (c : Char) : List Char :=
  if c = 'Â' then ['A', Char.ofNat 0x302]
  else if c = 'â' then ['a', Char.ofNat 0x302]
  else if c = 'Ã' then ['A', Char.ofNat 0x303]
  else if c = 'ã' then ['a', Char.ofNat 0x303]
  else if c = 'Ê' then ['E', Char.ofNat 0x302]
  else if c = 'ê' then ['e', Char.ofNat 0x302]
  else if c = 'Ô' then ['O', Char.ofNat 0x302]
  else if c = 'ô' then ['o', Char.ofNat 0x302]
  else if c = 'Õ' then ['O', Char.ofNat 0x303]
  else if c = 'õ' then ['o', Char.ofNat 0x303]
  else if c = 'Á' then ['A', Char.ofNat 0x301]
  else if c = 'á' then ['a', Char.ofNat 0x301]
  else if c = 'É' then ['E', Char.ofNat 0x301]
  else if c = 'é' then ['e', Char.ofNat 0x301]
  else if c = 'Í' then ['I', Char.ofNat 0x301]
  else if c = 'í' then ['i', Char.ofNat 0x301]
  else if c = 'Ó' then ['O', Char.ofNat 0x301]
  else if c = 'ó' then ['o', Char.ofNat 0x301]
  else if c = 'Ú' then ['U', Char.ofNat 0x301]
  else if c = 'ú' then ['u', Char.ofNat 0x301]
  else if c = 'Ç' then ['C', Char.ofNat 0x327]
  else if c = 'ç' then ['c', Char.ofNat 0x327]
  else [c]

/-- Source `get_normalize_description` (migrate.py lines 30-32): NFKD
decomposition of the input followed by ASCII encoding with `ignore`, which
drops every character outside the ASCII range (code point < 128).  The
function applies no case folding. -/
def get_normalize_description (description : List Char) : List Char :=
  ((description.map nfkdChar).flatten).filter (fun c => c.toNat < 128)

/-- Modelled from the spec: Python's `str.lower` on one character (a builtin,
not part of this repository), restricted to the ASCII letters and the accented
Latin letters covered by `nfkdChar`. -/
def toLowerChar (c : Char) : Char :=
  if 'A' ≤ c ∧ c ≤ 'Z' then Char.ofNat (c.toNat + 32)
  else if c = 'Â' then 'â'
  else if c = 'Ã' then 'ã'
  else if c = 'Ê' then 'ê'
  else if c = 'Ô' then 'ô'
  else if c = 'Õ' then 'õ'
  else if c = 'Á' then 'á'
  else if c = 'É' then 'é'
  else if c = 'Í' then 'í'
  else if c = 'Ó' then 'ó'
  else if c = 'Ú' then 'ú'
  else if c = 'Ç' then 'ç'
  else c

/-- Lower-casing of a whole description, character by character. -/
def lowerStr (description : List Char) : List Char :=
  description.map toLowerChar

/-- Longest-common-subsequence length with an explicit fuel argument so that
the recursion is structural (on the fuel) and kernel-reducible.  Fuel
`as.length + bs.length` always suffices, since every step shrinks the
combined length by at least one. -/
def lcsF : Nat → List Char → List Char → Nat
  | 0, _, _ => 0
  | f + 1, as0, bs0 =>
    match as0, bs0 with
    | [], _ => 0
    | _, [] => 0
    | a :: as, b :: bs =>
      if a = b then lcsF f as bs + 1
      else max (lcsF f as (b :: bs)) (lcsF f (a :: as) bs)

/-- Longest-common-subsequence length of two character lists. -/
def lcs (as bs : List Char) : Nat :=
  lcsF (as.length + bs.length) as bs

/-- Splits a character list into its maximal whitespace-free tokens,
dropping the whitespace; `acc` holds the reversed current token. -/
def splitTokensAux : List Char → List Char → List (List Char)
  | [], acc => if acc = [] then [] else [acc.reverse]
  | c :: cs, acc =>
    if c = ' ' then
      if acc = [] then splitTokensAux cs []
      else acc.reverse :: splitTokensAux cs []
    else splitTokensAux cs (c :: acc)

/-- Whitespace tokenization of a description. -/
def splitTokens (cs : List Char) : List (List Char) :=
  splitTokensAux cs []

/-- Lexicographic comparison of two tokens by code point. -/
def tokenLe : List Char → List Char → Bool
  | [], _ => true
  | _ :: _, [] => false
  | a :: as, b :: bs => if a = b then tokenLe as bs else decide (a.toNat < b.toNat)

/-- Insertion of a token into a sorted token list. -/
def insertToken (x : List Char) : List (List Char) → List (List Char)
  | [] => [x]
  | y :: ys => if tokenLe x y then x :: y :: ys else y :: insertToken x ys

/-- Insertion sort of a token list. -/
def sortTokens : List (List Char) → List (List Char)
  | [] => []
  | x :: xs => insertToken x (sortTokens xs)

/-- Rejoining of a token list into one string with single spaces. -/
def joinTokens : List (List Char) → List Char
  | [] => []
  | [t] => t
  | t :: ts => t ++ ' ' :: joinTokens ts

/-- Canonical token-sorted form of one input: tokenize on whitespace, sort
the tokens, rejoin with single spaces. -/
def tokenSortForm (cs : List Char) : List Char :=
  joinTokens (sortTokens (splitTokens cs))

/-- Modelled from the spec: the edit-distance-based similarity of two
canonical strings, `100 × 2M / T` rounded to the nearest integer (half up),
where `M` is the matched-character count of a longest-common-subsequence
alignment and `T` the combined length; two empty strings score 100. -/
def simScore (c1 c2 : List Char) : Nat :=
  if c1.length + c2.length = 0 then 100
  else (400 * lcs c1 c2 + (c1.length + c2.length)) / (2 * (c1.length + c2.length))

/-- Modelled from the spec: `fuzz.token_sort_ratio` (from the external
`fuzzywuzzy` library, not part of this repository) — each input is brought
to its token-sorted canonical form and the two canonical strings are
compared with `simScore`. -/
def token_sort_score (s1 s2 : List Char) : Nat :=
  simScore (tokenSortForm s1) (tokenSortForm s2)

/-- Source `MIN_RATIO_EQUIVALENCE` (migrate.py line 27). -/
def MIN_RATIO_EQUIVALENCE : Nat := 90

/-- Source `calc_description_equivalence_ratio` (migrate.py lines 35-41):
the similarity of the two normalized descriptions.  The `lru_cache`
memoization there is a pure-function optimization with no observable
effect, so it has no counterpart here. -/
def calc_description_equivalence_score (desc1 desc2 : List Char) : Nat :=
  token_sort_score (get_normalize_description desc1) (get_normalize_description desc2)

/-- Source `Product` (migrate.py lines 44-46): one catalog record. -/
structure Product where
  description : List Char
  price : Int
  deriving DecidableEq

/-- Source `Product.__eq__` (migrate.py lines 48-53): two records are
equivalent iff the similarity of their lower-cased descriptions reaches
`MIN_RATIO_EQUIVALENCE`.  Prices do not appear. -/
def productEq (a b : Product) : Bool :=
  decide (MIN_RATIO_EQUIVALENCE ≤
    calc_description_equivalence_score (lowerStr a.description) (lowerStr b.description))

/-- One output row: a description from db1 paired with a price from db2. -/
abbrev Row := List Char × Int

/-- Source `Migrate.run`, inner loop (migrate.py lines 146-159): for a fixed
db1 record `p`, walk db2 in order; on an equivalence match, skip if
`p.description` is already in the guard list, otherwise emit
`(p.description, s.price)` and append `p.description` to the guard.
Returns the emitted rows and the final guard list. -/
def innerLoop (p : Product) : List Product → List (List Char) → List Row × List (List Char)
  | [], guard => ([], guard)
  | s :: rest, guard =>
    if productEq p s then
      if p.description ∈ guard then innerLoop p rest guard
      else
        let r := innerLoop p rest (guard ++ [p.description])
        ((p.description, s.price) :: r.1, r.2)
    else innerLoop p rest guard

/-- Source `Migrate.run`, outer loop (migrate.py lines 145-159): the inner
loop for each db1 record in order, threading the guard list through. -/
def outerLoop : List Product → List Product → List (List Char) → List Row × List (List Char)
  | [], _, guard => ([], guard)
  | p :: ps, db2, guard =>
    let r1 := innerLoop p db2 guard
    let r2 := outerLoop ps db2 r1.2
    (r1.1 ++ r2.1, r2.2)

/-- Source `Migrate.run` (migrate.py lines 137-159): the rows written to the
output, starting from an empty guard list. -/
def run (db1 db2 : List Product) : List Row :=
  (outerLoop db1 db2 []).1

/-- Observable operations on the output sink (`XlsxWriterDB`): scope entry,
one appended row, and the save-and-close on scope exit. -/
inductive SinkEvent where
  | opened
  | wrote (row : Row)
  | saved
  deriving DecidableEq

/-- The sink events of a successful run: open, the emitted rows in order,
one final save. -/
def sinkEvents (db1 db2 : List Product) : List SinkEvent :=
  SinkEvent.opened :: ((run db1 db2).map SinkEvent.wrote ++ [SinkEvent.saved])

/-- Source `Migrate.run` with fallible sources (migrate.py lines 137-144):
`list(self._iter_products_from_db(self.db1))` is evaluated first, then
`list(self._iter_products_from_db(self.db2))`, and only then is the output
sink entered; a read failure propagates before any sink event occurs. -/
def runWithSources (src1 src2 : Except String (List Product)) :
    Except String (List SinkEvent) :=
  match src1 with
  | Except.error e => Except.error e
  | Except.ok db1 =>
    match src2 with
    | Except.error e => Except.error e
    | Except.ok db2 => Except.ok (sinkEvents db1 db2)

/-- Concrete description used in witnesses: ten letters `a`. -/
def descA : List Char := List.replicate 10 'a'

/-- Concrete description used in witnesses: nine letters `a` then one `b`. -/
def descB : List Char := List.replicate 9 'a' ++ ['b']

/-- Concrete description used in witnesses: eight letters `a` then two `b`. -/
def descC : List Char := List.replicate 8 'a' ++ ['b', 'b']

/-- Concrete description used in witnesses: ten letters `z`, matching none of
`descA`, `descB`, `descC`. -/
def descZ : List Char := List.replicate 10 'z'

/-- The fuel-indexed LCS is symmetric in its two list arguments, for any
fuel. -/
theorem lcsF_comm : ∀ (f : Nat) (as bs : List Char), lcsF f as bs = lcsF f bs as := by
  intro f
  induction f with
  | zero => intro as bs; rfl
  | succ f ih =>
    intro as bs
    cases as with
    | nil => cases bs <;> rfl
    | cons a as =>
      cases bs with
      | nil => rfl
      | cons b bs =>
        by_cases h : a = b
        · subst h
          simp [lcsF, ih as bs]
        · have h2 : ¬b = a := fun hba => h hba.symm
          simp only [lcsF, if_neg h, if_neg h2]
          rw [ih as (b :: bs), ih (a :: as) bs]
          exact Nat.max_comm _ _

/-- The LCS of two character lists is symmetric. -/
theorem lcs_comm (as bs : List Char) : lcs as bs = lcs bs as := by
  unfold lcs
  rw [lcsF_comm, Nat.add_comm]

/-- With enough fuel, the LCS of a list with itself is its length. -/
theorem lcsF_self : ∀ (cs : List Char) (f : Nat), cs.length ≤ f → lcsF f cs cs = cs.length := by
  intro cs
  induction cs with
  | nil => intro f _; cases f <;> rfl
  | cons a as ih =>
    intro f hf
    cases f with
    | zero => simp at hf
    | succ f =>
      have hlen : as.length ≤ f := by
        simpa using Nat.le_of_succ_le_succ (by simpa using hf)
      simp [lcsF, ih f hlen]

/-- The LCS of a list with itself is its length. -/
theorem lcs_self (cs : List Char) : lcs cs cs = cs.length := by
  unfold lcs
  exact lcsF_self cs _ (Nat.le_add_right _ _)

/-- The similarity of a canonical string with itself is 100. -/
theorem simScore_self (c : List Char) : simScore c c = 100 := by
  unfold simScore
  by_cases h : c.length + c.length = 0
  · simp [h]
  · have hn : 0 < c.length := by omega
    rw [if_neg h, lcs_self]
    have hlo : 100 * (2 * (c.length + c.length)) ≤ 400 * c.length + (c.length + c.length) := by
      omega
    have hhi : 400 * c.length + (c.length + c.length) < (100 + 1) * (2 * (c.length + c.length)) := by
      omega
    exact Nat.div_eq_of_lt_le hlo hhi

/-- The similarity of two canonical strings is symmetric. -/
theorem simScore_comm (c1 c2 : List Char) : simScore c1 c2 = simScore c2 c1 := by
  unfold simScore
  rw [lcs_comm, Nat.add_comm c1.length c2.length]

/-- The token-sort similarity of a string with itself is 100. -/
theorem token_sort_score_self (s : List Char) : token_sort_score s s = 100 := by
  unfold token_sort_score
  exact simScore_self _

/-- The token-sort similarity is symmetric. -/
theorem token_sort_score_comm (s1 s2 : List Char) :
    token_sort_score s1 s2 = token_sort_score s2 s1 := by
  unfold token_sort_score
  exact simScore_comm _ _

/-- Once `p.description` is in the guard list, the inner loop emits nothing
and leaves the guard unchanged, whatever db2 holds. -/
theorem innerLoop_mem (p : Product) (db2 : List Product) (g : List (List Char))
    (h : p.description ∈ g) : innerLoop p db2 g = ([], g) := by
  induction db2 with
  | nil => rfl
  | cons s rest ih =>
    by_cases hm : productEq p s = true
    · simp [innerLoop, hm, h, ih]
    · simp [innerLoop, hm, ih]

/-- The inner loop's final guard is the initial guard followed by the
descriptions of the rows it emitted, in order. -/
theorem innerLoop_guard (p : Product) (db2 : List Product) (g : List (List Char)) :
    (innerLoop p db2 g).2 = g ++ (innerLoop p db2 g).1.map Prod.fst := by
  induction db2 generalizing g with
  | nil => simp [innerLoop]
  | cons s rest ih =>
    by_cases hm : productEq p s = true
    · by_cases hg : p.description ∈ g
      · simpa [innerLoop, hm, hg] using ih g
      · simp only [innerLoop, if_pos hm, if_neg hg]
        rw [ih (g ++ [p.description])]
        simp
    · simpa [innerLoop, hm] using ih g

/-- The inner loop preserves guard-list distinctness. -/
theorem innerLoop_nodup (p : Product) (db2 : List Product) (g : List (List Char))
    (h : g.Nodup) : (innerLoop p db2 g).2.Nodup := by
  induction db2 generalizing g with
  | nil => simpa [innerLoop] using h
  | cons s rest ih =>
    by_cases hm : productEq p s = true
    · by_cases hg : p.description ∈ g
      · simpa [innerLoop, hm, hg] using ih g h
      · have hnew : (g ++ [p.description]).Nodup := by
          simp [List.nodup_append, h, hg]
        simpa [innerLoop, hm, hg] using ih (g ++ [p.description]) hnew
    · simpa [innerLoop, hm] using ih g h

/-- The outer loop's final guard is the initial guard followed by the
descriptions of all emitted rows, in order. -/
theorem outerLoop_guard (db1 db2 : List Product) (g : List (List Char)) :
    (outerLoop db1 db2 g).2 = g ++ (outerLoop db1 db2 g).1.map Prod.fst := by
  induction db1 generalizing g with
  | nil => simp [outerLoop]
  | cons p ps ih =>
    simp only [outerLoop]
    rw [ih, innerLoop_guard p db2 g]
    simp

/-- The outer loop preserves guard-list distinctness. -/
theorem outerLoop_nodup (db1 db2 : List Product) (g : List (List Char))
    (h : g.Nodup) : (outerLoop db1 db2 g).2.Nodup := by
  induction db1 generalizing g with
  | nil => simpa [outerLoop] using h
  | cons p ps ih =>
    simp only [outerLoop]
    exact ih (innerLoop p db2 g).2 (innerLoop_nodup p db2 g h)

/-- If no db2 record matches `p`, the inner loop emits nothing and leaves the
guard unchanged. -/
theorem innerLoop_no_match (p : Product) (db2 : List Product) (g : List (List Char))
    (h : ∀ s ∈ db2, productEq p s = false) : innerLoop p db2 g = ([], g) := by
  induction db2 with
  | nil => rfl
  | cons s rest ih =>
    have hs : productEq p s = false := h s (by simp)
    simp only [innerLoop, hs, Bool.false_eq_true, if_false]
    exact ih (fun q hq => h q (by simp [hq]))

/-- If no db1 record matches any db2 record, the outer loop emits nothing and
leaves the guard unchanged. -/
theorem outerLoop_no_match (db1 db2 : List Product) (g : List (List Char))
    (h : ∀ q ∈ db1, ∀ s ∈ db2, productEq q s = false) : outerLoop db1 db2 g = ([], g) := by
  induction db1 generalizing g with
  | nil => rfl
  | cons p ps ih =>
    simp only [outerLoop]
    rw [innerLoop_no_match p db2 g (h p (by simp))]
    simp [ih g (fun q hq => h q (by simp [hq]))]

/-- Claim C1: first-match-wins — for a primary record `p` whose description
is not yet in the guard list, if some db2 record equivalence-matches `p`,
the inner loop of the reconciliation emits exactly the row
`(p.description, s.price)` where `s` is the first matching record in db2's
iteration order; all later matches produce no output and no further state
change beyond the single guard entry, so the highest-scoring match is never
selected in preference to the first. -/
theorem first_match_wins (p : Product) (db2 : List Product) (g : List (List Char))
    (s : Product) (hg : p.description ∉ g)
    (hf : db2.find? (fun q => productEq p q) = some s) :
    innerLoop p db2 g = ([(p.description, s.price)], g ++ [p.description]) := by
  induction db2 generalizing g with
  | nil => simp at hf
  | cons t rest ih =>
    by_cases hm : productEq p t = true
    · have hts : t = s := by
        rw [List.find?_cons_of_pos _ hm] at hf
        exact Option.some.inj hf
      subst hts
      have hmem : innerLoop p rest (g ++ [p.description]) = ([], g ++ [p.description]) :=
        innerLoop_mem p rest _ (by simp)
      simp [innerLoop, hm, hg, hmem]
    · have hf2 : rest.find? (fun q => productEq p q) = some s := by
        rwa [List.find?_cons_of_neg _ (by simp [hm])] at hf
      simpa [innerLoop, hm] using ih g hg hf2

/-- Witness for C1 at a concrete input: db2 holds a non-matching record, then
two matching ones; the row carries the first matching record's price 7 and
the later match (price 9) is ignored. -/
theorem first_match_wins_witness :
    innerLoop ⟨descA, 1⟩ [⟨descZ, 5⟩, ⟨descB, 7⟩, ⟨descA, 9⟩] [] =
      ([(descA, 7)], [descA]) :=
  first_match_wins ⟨descA, 1⟩ [⟨descZ, 5⟩, ⟨descB, 7⟩, ⟨descA, 9⟩] [] ⟨descB, 7⟩
    (by simp) (by decide)

/-- Claim C2: the record-equivalence rule — `productEq a b` holds exactly
when the similarity of the normalized, lower-cased descriptions reaches
`MIN_RATIO_EQUIVALENCE` (90), and the prices of the two records never
influence the result. -/
theorem equivalence_rule (a b : Product) :
    (productEq a b = true ↔
      MIN_RATIO_EQUIVALENCE ≤
        token_sort_score (get_normalize_description (lowerStr a.description))
          (get_normalize_description (lowerStr b.description))) ∧
    (∀ p1 p2 : Int,
      productEq { description := a.description, price := p1 }
        { description := b.description, price := p2 } = productEq a b) := by
  constructor
  · simp [productEq, calc_description_equivalence_score]
  · intro p1 p2
    rfl

/-- Claim C3: the reconciliation output never carries the same primary
description twice, whatever the two input sequences are. -/
theorem output_descriptions_nodup (db1 db2 : List Product) :
    ((run db1 db2).map Prod.fst).Nodup := by
  have h2 := outerLoop_nodup db1 db2 [] List.nodup_nil
  rw [outerLoop_guard db1 db2 []] at h2
  simpa [run] using h2

/-- Claim C4, counterexample: the source normalizer applies no case folding —
on input `"Ab"` its output is `"Ab"` again, which contains both an upper-case
and a lower-case letter, contradicting the claim that the normalizer's output
has no mixed case. -/
theorem normalizer_keeps_case :
    (get_normalize_description ['A', 'b']).any Char.isUpper = true ∧
    (get_normalize_description ['A', 'b']).any Char.isLower = true := by
  decide

/-- Claim C4 as amended: the normalizer performs Unicode canonical
decomposition followed by removal of every non-ASCII character, so its
output never contains a character with code point ≥ 128; it is a pure total
function; case folding is not part of the normalizer but is applied to its
input by the equivalence rule. -/
theorem normalizer_ascii_total (description : List Char) :
    (get_normalize_description description).all (fun c => decide (c.toNat < 128)) = true := by
  rw [List.all_eq_true]
  intro c hc
  simpa using (List.mem_filter.mp hc).2

/-- Claim C5: similarity scoring is symmetric, both for the raw token-sort
scorer and for the repository's normalizing wrapper around it. -/
theorem score_symmetric (a b : List Char) :
    token_sort_score a b = token_sort_score b a ∧
    calc_description_equivalence_score a b = calc_description_equivalence_score b a := by
  constructor
  · exact token_sort_score_comm a b
  · unfold calc_description_equivalence_score
    exact token_sort_score_comm _ _

/-- Claim C6: two records with identical descriptions are equivalent
regardless of their prices — the score of a string with itself is 100, which
meets the threshold, and price never enters the predicate. -/
theorem same_description_equivalent (d : List Char) (p1 p2 : Int) :
    productEq { description := d, price := p1 } { description := d, price := p2 } = true := by
  unfold productEq calc_description_equivalence_score
  rw [token_sort_score_self]
  decide

/-- Claim C7: record equivalence is not transitive — there are records A, B,
C with A equivalent to B and B equivalent to C but A not equivalent to C. -/
theorem equivalence_not_transitive :
    ∃ a b c : Product,
      productEq a b = true ∧ productEq b c = true ∧ productEq a c = false :=
  ⟨⟨descA, 1⟩, ⟨descB, 2⟩, ⟨descC, 3⟩, by decide, by decide, by decide⟩

/-- Claim C8: silent drop of unmatched records — a primary record matched by
no db2 record contributes no output row and leaves the guard unchanged, and
a run in which no record matches at all completes with an empty output. -/
theorem unmatched_silent_drop (p : Product) (db2 db1 : List Product) (g : List (List Char))
    (h1 : ∀ s ∈ db2, productEq p s = false)
    (h2 : ∀ q ∈ db1, ∀ s ∈ db2, productEq q s = false) :
    innerLoop p db2 g = ([], g) ∧ run db1 db2 = [] := by
  refine ⟨innerLoop_no_match p db2 g h1, ?_⟩
  simp [run, outerLoop_no_match db1 db2 [] h2]

/-- Witness for C8 at a concrete input: `descZ` matches nothing in db2, so
its record is dropped silently and the whole run emits no row. -/
theorem unmatched_silent_drop_witness :
    innerLoop ⟨descZ, 1⟩ [⟨descA, 5⟩] [] = ([], []) ∧
    run [⟨descZ, 1⟩] [⟨descA, 5⟩] = [] :=
  unmatched_silent_drop ⟨descZ, 1⟩ [⟨descA, 5⟩] [⟨descZ, 1⟩] []
    (by decide) (by decide)

/-- Claim C9: secondary records are never consumed — here one db2 record
equivalence-matches two db1 records with distinct descriptions, and both
emitted rows carry that same db2 record's price 55. -/
theorem secondary_record_reused :
    run [⟨descA, 1⟩, ⟨descB, 2⟩] [⟨descA, 55⟩] = [(descA, 55), (descB, 55)] ∧
    descA ≠ descB ∧
    productEq ⟨descA, 1⟩ ⟨descA, 55⟩ = true ∧
    productEq ⟨descB, 2⟩ ⟨descA, 55⟩ = true := by
  refine ⟨by decide, by decide, by decide, by decide⟩

/-- Claim C10: read-failure atomicity — both sources are materialized before
the sink is entered, so a failure reading either source propagates as the
run's result before any sink event (open, append or finalize) occurs. -/
theorem read_failure_atomicity :
    (∀ (e : String) (src2 : Except String (List Product)),
        runWithSources (Except.error e) src2 = Except.error e) ∧
    (∀ (db1 : List Product) (e : String),
        runWithSources (Except.ok db1) (Except.error e) = Except.error e) :=
  ⟨fun _ _ => rfl, fun _ _ => rfl⟩

end DBMigration
